import Mathlib

/-!
Verification of the Automappa refinement data source, background-task
pipeline and figure utilities.

The relational state touched by `RefinementDataSource`
(automappa/pages/mag_refinement/source.py) is embedded as explicit lists
of rows; each method becomes a pure function from a `DB` state to a new
state (and return value).  The Celery pipeline of automappa/tasks.py is
embedded as a canvas syntax tree together with a table-name-level
execution semantics, and `marker_size_scaler` of automappa/utils/figures.py
is embedded over ℚ with NaN-producing division modelled by `Option ℚ`.
-/

namespace Automappa

/-- A row of the `contig` table.  Modelled from the spec: the SQLModel
definitions (automappa/data/models.py) are not part of the provided
sources; the spec states that a Contig belongs to one Metagenome, which
the single `metagenome_id` foreign key encodes, and source.py accesses
`Contig.id`, `Contig.header`, `Contig.metagenome_id` and the
many-to-many `Contig.refinements` relationship. -/
structure Contig where
  id : Nat
  metagenome_id : Nat
  header : String
deriving Repr, DecidableEq

/-- A row of the `marker` table.  Modelled from the spec: the SQLModel
definitions are not part of the provided sources; the spec states that a
Contig has zero-or-more Markers, encoded by the `contig_id` foreign key
on the marker row. -/
structure Marker where
  id : Nat
  contig_id : Nat
deriving Repr, DecidableEq

/-- A row of the `refinement` table together with its many-to-many
contig memberships (`contig_ids` stands for the association rows of the
refinement-to-contig link table).  Field accesses in source.py:
`Refinement.id`, `Refinement.metagenome_id`, `Refinement.outdated`,
`Refinement.initial_refinement`, `Refinement.timestamp`,
`Refinement.contigs`. -/
structure Refinement where
  id : Nat
  metagenome_id : Nat
  outdated : Bool
  initial_refinement : Bool
  timestamp : Nat
  contig_ids : List Nat
deriving Repr, DecidableEq

/-- The database state visible to `RefinementDataSource`. -/
structure DB where
  contigs : List Contig
  refinements : List Refinement
  markers : List Marker
deriving Repr, DecidableEq

/-- The contigs selected by
`select(Contig).where(Contig.metagenome_id == metagenome_id, Contig.header.in_(headers))`
in `save_selections_to_refinement`. -/
def selectedContigs (db : DB) (metagenome_id : Nat) (headers : List String) :
    List Contig :=
  db.contigs.filter fun c =>
    c.metagenome_id == metagenome_id && decide (c.header ∈ headers)

/-- Whether `save_selections_to_refinement`'s loop
(`for contig in contigs: for refinement in contig.refinements: refinement.outdated = True`)
touches the refinement row `r`: some selected contig is a member of `r`. -/
def touches (sel : List Contig) (r : Refinement) : Bool :=
  sel.any fun c => decide (c.id ∈ r.contig_ids)

/-- `RefinementDataSource.save_selections_to_refinement(metagenome_id, headers)`:
select the contigs of the metagenome whose header is in `headers`, mark
every refinement containing any of them as outdated, then add a new
refinement holding exactly the selected contigs, with
`outdated=False, initial_refinement=False`.  The row id assigned by the
database and the `datetime.utcnow` default of the timestamp column enter
as the explicit arguments `newId` and `now`. -/
def save_selections_to_refinement (db : DB) (metagenome_id : Nat)
    (headers : List String) (now : Nat) (newId : Nat) : DB :=
  let sel := selectedContigs db metagenome_id headers
  let updated := db.refinements.map fun r =>
    if touches sel r then { r with outdated := true } else r
  { db with
    refinements :=
      updated ++
        [{ id := newId, metagenome_id := metagenome_id, outdated := false,
           initial_refinement := false, timestamp := now,
           contig_ids := sel.map Contig.id }] }

/-- `RefinementDataSource.clear_refinements(metagenome_id)`: delete every
refinement of the metagenome whose `initial_refinement` flag is `False`
and return how many were deleted. -/
def clear_refinements (db : DB) (metagenome_id : Nat) : DB × Nat :=
  let doomed := db.refinements.filter fun r =>
    r.metagenome_id == metagenome_id && !r.initial_refinement
  ({ db with
     refinements := db.refinements.filter fun r =>
       !(r.metagenome_id == metagenome_id && !r.initial_refinement) },
   doomed.length)

/-- `RefinementDataSource.has_user_refinements(metagenome_id)`: whether a
refinement of the metagenome with `initial_refinement == False` and
`outdated == False` exists. -/
def has_user_refinements (db : DB) (metagenome_id : Nat) : Bool :=
  db.refinements.any fun r =>
    r.metagenome_id == metagenome_id && !r.initial_refinement && !r.outdated

/-- The refinement rows selected by
`RefinementDataSource.get_refinements_row_data(metagenome_id)`:
`Refinement.metagenome_id == metagenome_id, Refinement.outdated == False, Refinement.initial_refinement == False`. -/
def currentRefinements (db : DB) (metagenome_id : Nat) : List Refinement :=
  db.refinements.filter fun r =>
    r.metagenome_id == metagenome_id && !r.outdated && !r.initial_refinement

/-- `RefinementDataSource.get_refinements_row_data(metagenome_id)`: one
row `(refinement_id, timestamp, number of contigs)` per current
refinement. -/
def get_refinements_row_data (db : DB) (metagenome_id : Nat) :
    List (Nat × Nat × Nat) :=
  (currentRefinements db metagenome_id).map fun r =>
    (r.id, r.timestamp, r.contig_ids.length)

/-- The markers of a contig (the zero-or-more `Contig.markers`
relationship). Modelled from the spec: the SQLModel definitions are not
part of the provided sources. -/
def contigMarkers (db : DB) (c : Contig) : List Marker :=
  db.markers.filter fun m => m.contig_id == c.id

/-- How many refinements with `outdated == False` contain the contig
`cid`.  (Specification device for the uniqueness invariant; not a
source.py function.) -/
def currentCount (db : DB) (cid : Nat) : Nat :=
  db.refinements.countP fun r => !r.outdated && decide (cid ∈ r.contig_ids)

/-- Every contig belongs to at most one refinement with
`outdated == False`. -/
def AtMostOneCurrent (db : DB) : Prop :=
  ∀ cid, currentCount db cid ≤ 1

/-- A call to `save_selections_to_refinement`:
`(metagenome_id, headers, timestamp, new row id)`. -/
def applyCalls (db : DB) (calls : List (Nat × List String × Nat × Nat)) : DB :=
  calls.foldl
    (fun d c => save_selections_to_refinement d c.1 c.2.1 c.2.2.1 c.2.2.2) db

/-! ## The background task pipeline (automappa/tasks.py)

Celery signatures are embedded as a small syntax tree; the result of the
previous task in a chain is prepended to a signature's stored arguments,
as Celery does.  Each task's effect is modelled at the level of the
table names it consumes and returns (the k-mer maths inside is Autometa,
out of scope). -/

/-- A Celery task signature as submitted by tasks.py (`task.s(args)`). -/
inductive Sig where
  | countKmer (metagenome_table : String) (size : Nat) (cpus : Nat)
  | normalizeKmer (norm_method : String)
  | embedKmer (embed_method : String) (n_jobs : Nat)
  | aggregateEmbeddings (table_name : String)
deriving Repr, DecidableEq

/-- A Celery canvas: a single task, a chain built with `|`, or a
parallel group. -/
inductive Canvas where
  | task (s : Sig)
  | chain (a b : Canvas)
  | group (sigs : List Sig)
deriving Repr, DecidableEq

/-- The value a finished task (or group) hands to its successor. -/
inductive TaskResult where
  | str (s : String)
  | strs (l : List String)
deriving Repr, DecidableEq

/-- The table name returned by `count_kmer(metagenome_table, size, cpus)`:
`metagenome_table.replace("-metagenome", f"-{size}mers")`. -/
def count_kmer_table (metagenome_table : String) (size : Nat) : String :=
  metagenome_table.replace "-metagenome" ("-" ++ toString size ++ "mers")

/-- The table name returned by `normalize_kmer(counts_table, norm_method)`:
`f"{counts_table}-{norm_method}"`. -/
def normalize_kmer_table (counts_table norm_method : String) : String :=
  counts_table ++ "-" ++ norm_method

/-- The table name returned by `embed_kmer(norm_table, embed_method, n_jobs)`:
`f"{norm_table}-{embed_method}"`. -/
def embed_kmer_table (norm_table embed_method : String) : String :=
  norm_table ++ "-" ++ embed_method

/-- Run one signature with the chained-in previous result.  `count_kmer`
takes the metagenome table from its stored arguments; `normalize_kmer`,
`embed_kmer` and `aggregate_embeddings` consume the previous result as
their first positional argument and fail (`none`) when none of the right
shape is available.  `aggregate_embeddings(embed_tables, table_name)`
concatenates the embedding tables and returns `table_name`. -/
def runSig (prev : Option TaskResult) : Sig → Option TaskResult
  | .countKmer metagenome_table size _ =>
      some (.str (count_kmer_table metagenome_table size))
  | .normalizeKmer norm_method =>
      match prev with
      | some (.str counts_table) =>
          some (.str (normalize_kmer_table counts_table norm_method))
      | _ => none
  | .embedKmer embed_method _ =>
      match prev with
      | some (.str norm_table) =>
          some (.str (embed_kmer_table norm_table embed_method))
      | _ => none
  | .aggregateEmbeddings table_name =>
      match prev with
      | some (.strs _) => some (.str table_name)
      | _ => none

/-- Extract the single table name a group member produced. -/
def singleTable : Option TaskResult → Option String
  | some (.str s) => some s
  | _ => none

/-- Collect the table names of a group's members; the group fails when a
member does. -/
def collectTables : List (Option TaskResult) → Option (List String)
  | [] => some []
  | r :: rs =>
      match singleTable r, collectTables rs with
      | some t, some ts => some (t :: ts)
      | _, _ => none

/-- Run a canvas: a chain feeds each stage's result to the next; every
member of a group receives the same previous result and the group's
result is the list of the members' tables. -/
def runCanvas (prev : Option TaskResult) : Canvas → Option TaskResult
  | .task s => runSig prev s
  | .chain a b => runCanvas (runCanvas prev a) b
  | .group sigs =>
      match collectTables (sigs.map (runSig prev)) with
      | some tables => some (.strs tables)
      | none => none

/-- The canvas built and submitted by
`preprocess_embeddings(metagenome_table, cpus, kmer_size, norm_method, embed_methods)`:
`count_kmer.s(metagenome_table, kmer_size, cpus) | normalize_kmer.s(norm_method) | group(embed_kmer.s(m, cpus) for m in embed_methods) | aggregate_embeddings.s(embeddings_table)`
with `embeddings_table = metagenome_table.replace("-metagenome", "-embeddings")`
(Celery's `|` associates to the left). -/
def preprocess_embeddings (metagenome_table : String) (cpus : Nat)
    (kmer_size : Nat) (norm_method : String) (embed_methods : List String) :
    Canvas :=
  let embeddings_table := metagenome_table.replace "-metagenome" "-embeddings"
  .chain
    (.chain
      (.chain
        (.task (.countKmer metagenome_table kmer_size cpus))
        (.task (.normalizeKmer norm_method)))
      (.group (embed_methods.map fun m => .embedKmer m cpus)))
    (.task (.aggregateEmbeddings embeddings_table))

/-! ## Marker sizes (automappa/utils/figures.py)

`marker_size_scaler` works on a pandas length column; the column is
embedded as a `List ℚ` and the IEEE NaN produced by `0.0 / 0.0` is
modelled by `none`, with `np.ceil` and the surrounding arithmetic
propagating it. -/

/-- `Series.min()` of a length column. -/
def seriesMin : List ℚ → Option ℚ
  | [] => none
  | x :: xs => some (xs.foldl min x)

/-- `Series.max()` of a length column. -/
def seriesMax : List ℚ → Option ℚ
  | [] => none
  | x :: xs => some (xs.foldl max x)

/-- Numpy division of equal-signed zeros and ordinary rationals:
`0 / 0` is NaN (`none`), otherwise exact.  (In `marker_size_scaler` the
numerator is always `0` whenever the denominator is `0`, so the
infinity cases of IEEE division never arise.) -/
def npDiv (a b : ℚ) : Option ℚ :=
  if b = 0 then none else some (a / b)

/-- `marker_size_scaler(x, scale_by)` from `get_scatterplot_3d`, applied
to the `scale_by` column:

```
x_min_scaler = x[scale_by] - x[scale_by].min()
x_max_scaler = x[scale_by].max() - x[scale_by].min()
if not x_max_scaler:
    # Protect Division by 0
    x_ceil = np.ceil(x_min_scaler / x_max_scaler + 1)
else:
    x_ceil = np.ceil(x_min_scaler / x_max_scaler)
x_scaled = x_ceil * 2 + 4
```

The result is one marker size per row; `none` is a NaN entry. -/
def marker_size_scaler (lengths : List ℚ) : List (Option ℚ) :=
  match seriesMin lengths, seriesMax lengths with
  | some mn, some mx =>
      let x_max_scaler := mx - mn
      lengths.map fun x =>
        let x_min_scaler := x - mn
        let x_ceil : Option ℚ :=
          if x_max_scaler = 0 then
            (npDiv x_min_scaler x_max_scaler).map fun q => (⌈q + 1⌉ : ℚ)
          else
            (npDiv x_min_scaler x_max_scaler).map fun q => (⌈q⌉ : ℚ)
        x_ceil.map fun c => c * 2 + 4
  | _, _ => []

/-! ## Theorems -/

/-- The refinement rows after a save: the old rows with touched ones
marked outdated, then the freshly created row. -/
lemma save_refinements_eq (db : DB) (mg : Nat) (hs : List String)
    (now nid : Nat) :
    (save_selections_to_refinement db mg hs now nid).refinements =
      (db.refinements.map fun r =>
        if touches (selectedContigs db mg hs) r then { r with outdated := true }
        else r) ++
      [{ id := nid, metagenome_id := mg, outdated := false,
         initial_refinement := false, timestamp := now,
         contig_ids := (selectedContigs db mg hs).map Contig.id }] := rfl

/-- C8: `has_user_refinements(metagenome_id)` returns `True` exactly when
some refinement of the metagenome has `initial_refinement == False` and
`outdated == False`.  (It reads the database and returns a `Bool`; in
this embedding its type `DB → Nat → Bool` carries no state change.) -/
theorem has_user_refinements_iff (db : DB) (mg : Nat) :
    has_user_refinements db mg = true ↔
      ∃ r ∈ db.refinements,
        r.metagenome_id = mg ∧ r.initial_refinement = false ∧
          r.outdated = false := by
  simp [has_user_refinements, List.any_eq_true, and_assoc]

/-- Closed instance of `has_user_refinements_iff`. -/
theorem has_user_refinements_iff_witness :
    has_user_refinements
        ⟨[], [{ id := 7, metagenome_id := 3, outdated := false,
                initial_refinement := false, timestamp := 0,
                contig_ids := [1] }], []⟩ 3 = true :=
  (has_user_refinements_iff _ 3).mpr
    ⟨{ id := 7, metagenome_id := 3, outdated := false,
       initial_refinement := false, timestamp := 0, contig_ids := [1] },
      by simp, by decide, by decide, by decide⟩

/-- C6: `clear_refinements(metagenome_id)` removes exactly the
refinements of the metagenome whose `initial_refinement` flag is `False`
(outdated or not), returns how many it removed, and leaves contigs,
markers and every `initial_refinement == True` refinement in place. -/
theorem clear_refinements_deletes_user_refinements (db : DB) (mg : Nat) :
    ((clear_refinements db mg).2 =
      (db.refinements.filter fun r =>
        r.metagenome_id == mg && !r.initial_refinement).length)
    ∧ (∀ r, r ∈ (clear_refinements db mg).1.refinements ↔
        r ∈ db.refinements ∧
          ¬(r.metagenome_id = mg ∧ r.initial_refinement = false))
    ∧ (clear_refinements db mg).1.contigs = db.contigs
    ∧ (clear_refinements db mg).1.markers = db.markers := by
  refine ⟨rfl, fun r => ?_, rfl, rfl⟩
  simp [clear_refinements, List.mem_filter]
  tauto

/-- Closed instance of `clear_refinements_deletes_user_refinements`. -/
theorem clear_refinements_deletes_user_refinements_witness :
    (clear_refinements
        ⟨[], [{ id := 1, metagenome_id := 3, outdated := true,
                initial_refinement := false, timestamp := 0,
                contig_ids := [] },
              { id := 2, metagenome_id := 3, outdated := false,
                initial_refinement := true, timestamp := 0,
                contig_ids := [] }], []⟩ 3).2 = 1 :=
  (clear_refinements_deletes_user_refinements _ 3).1.trans (by decide)

/-- C4: the refinement row `save_selections_to_refinement` creates is the
appended last row: it carries an id and a timestamp, is created with
`outdated = False` and `initial_refinement = False`, and its contig set
is exactly the selected contigs — the contigs of the given metagenome
whose headers are in the selection. -/
theorem save_selections_new_refinement_shape (db : DB) (mg : Nat)
    (hs : List String) (now nid : Nat) :
    ((save_selections_to_refinement db mg hs now nid).refinements.getLast? =
      some { id := nid, metagenome_id := mg, outdated := false,
             initial_refinement := false, timestamp := now,
             contig_ids := (selectedContigs db mg hs).map Contig.id })
    ∧ ∀ cid, cid ∈ (selectedContigs db mg hs).map Contig.id ↔
        ∃ c ∈ db.contigs,
          c.metagenome_id = mg ∧ c.header ∈ hs ∧ c.id = cid := by
  constructor
  · rw [save_refinements_eq]
    exact List.getLast?_concat _
  · intro cid
    simp [selectedContigs, List.mem_filter, and_assoc]

/-- Closed instance of `save_selections_new_refinement_shape`. -/
theorem save_selections_new_refinement_shape_witness :
    (save_selections_to_refinement
        ⟨[{ id := 4, metagenome_id := 3, header := "c1" }], [], []⟩
        3 ["c1"] 9 1).refinements.getLast? =
      some { id := 1, metagenome_id := 3, outdated := false,
             initial_refinement := false, timestamp := 9,
             contig_ids := [4] } :=
  ((save_selections_new_refinement_shape
      ⟨[{ id := 4, metagenome_id := 3, header := "c1" }], [], []⟩
      3 ["c1"] 9 1).1).trans (by decide)

/-- C1: for a non-empty selection, every refinement that before the call
contained a contig of the metagenome whose header is selected appears
after the call with `outdated = True` (it is marked, not deleted). -/
theorem save_selections_marks_prior_refinements_outdated (db : DB)
    (mg : Nat) (hs : List String) (now nid : Nat) (_hne : hs ≠ [])
    (r : Refinement) (hr : r ∈ db.refinements)
    (hc : ∃ c ∈ db.contigs,
      c.metagenome_id = mg ∧ c.header ∈ hs ∧ c.id ∈ r.contig_ids) :
    { r with outdated := true } ∈
      (save_selections_to_refinement db mg hs now nid).refinements := by
  obtain ⟨c, hcm, hmg, hh, hcid⟩ := hc
  have hsel : c ∈ selectedContigs db mg hs := by
    simp [selectedContigs, List.mem_filter, hcm, hmg, hh]
  have ht : touches (selectedContigs db mg hs) r = true := by
    simp only [touches, List.any_eq_true]
    exact ⟨c, hsel, by simpa using hcid⟩
  rw [save_refinements_eq]
  refine List.mem_append_left _ ?_
  have hmem := List.mem_map_of_mem
    (fun r => if touches (selectedContigs db mg hs) r then
      { r with outdated := true } else r) hr
  simpa [ht] using hmem

/-- Closed instance of `save_selections_marks_prior_refinements_outdated`. -/
theorem save_selections_marks_prior_refinements_outdated_witness :
    { id := 7, metagenome_id := 3, outdated := true,
      initial_refinement := false, timestamp := 0,
      contig_ids := [4] : Refinement } ∈
      (save_selections_to_refinement
        ⟨[{ id := 4, metagenome_id := 3, header := "c1" }],
         [{ id := 7, metagenome_id := 3, outdated := false,
            initial_refinement := false, timestamp := 0,
            contig_ids := [4] }], []⟩ 3 ["c1"] 9 8).refinements :=
  save_selections_marks_prior_refinements_outdated _ 3 ["c1"] 9 8
    (by decide)
    { id := 7, metagenome_id := 3, outdated := false,
      initial_refinement := false, timestamp := 0, contig_ids := [4] }
    (by simp)
    ⟨{ id := 4, metagenome_id := 3, header := "c1" }, by simp,
      by decide, by decide, by decide⟩

/-- C3: `save_selections_to_refinement` removes no refinement row: the
row count grows by one, every prior row survives with its id,
`initial_refinement` flag, timestamp and contig set intact, and a row
containing none of the selected contigs is completely unchanged. -/
theorem save_selections_removes_no_refinement (db : DB) (mg : Nat)
    (hs : List String) (now nid : Nat) :
    ((save_selections_to_refinement db mg hs now nid).refinements.length =
      db.refinements.length + 1)
    ∧ (∀ r ∈ db.refinements,
        ∃ r' ∈ (save_selections_to_refinement db mg hs now nid).refinements,
          r'.id = r.id ∧ r'.initial_refinement = r.initial_refinement ∧
            r'.timestamp = r.timestamp ∧ r'.contig_ids = r.contig_ids)
    ∧ (∀ r ∈ db.refinements,
        (∀ c ∈ selectedContigs db mg hs, c.id ∉ r.contig_ids) →
          r ∈ (save_selections_to_refinement db mg hs now nid).refinements) := by
  refine ⟨?_, fun r hr => ?_, fun r hr hnone => ?_⟩
  · rw [save_refinements_eq]
    simp
  · refine ⟨if touches (selectedContigs db mg hs) r then
      { r with outdated := true } else r, ?_, ?_⟩
    · rw [save_refinements_eq]
      exact List.mem_append_left _ (List.mem_map_of_mem _ hr)
    · by_cases ht : touches (selectedContigs db mg hs) r <;> simp [ht]
  · have ht : touches (selectedContigs db mg hs) r = false := by
      simp only [touches, List.any_eq_false]
      intro c hc
      simpa using hnone c hc
    rw [save_refinements_eq]
    refine List.mem_append_left _ ?_
    have hmem := List.mem_map_of_mem
      (fun r => if touches (selectedContigs db mg hs) r then
        { r with outdated := true } else r) hr
    simpa [ht] using hmem

/-- Closed instance of `save_selections_removes_no_refinement`. -/
theorem save_selections_removes_no_refinement_witness :
    { id := 7, metagenome_id := 3, outdated := false,
      initial_refinement := false, timestamp := 0,
      contig_ids := [5] : Refinement } ∈
      (save_selections_to_refinement
        ⟨[{ id := 4, metagenome_id := 3, header := "c1" }],
         [{ id := 7, metagenome_id := 3, outdated := false,
            initial_refinement := false, timestamp := 0,
            contig_ids := [5] }], []⟩ 3 ["c1"] 9 8).refinements :=
  (save_selections_removes_no_refinement _ 3 ["c1"] 9 8).2.2
    { id := 7, metagenome_id := 3, outdated := false,
      initial_refinement := false, timestamp := 0, contig_ids := [5] }
    (by simp) (by decide)

/-- Running the embed group on the normalized table yields one embedding
table per method. -/
lemma collectTables_embed_group (normd : String) (cpus : Nat)
    (ems : List String) :
    collectTables ((ems.map fun m => Sig.embedKmer m cpus).map
        (runSig (some (.str normd)))) =
      some (ems.map fun m => embed_kmer_table normd m) := by
  induction ems with
  | nil => rfl
  | cons m ems ih =>
      simp only [List.map_cons, collectTables, runSig, singleTable, ih]

/-- C2: `preprocess_embeddings` submits exactly the left-associated chain
`count_kmer | normalize_kmer | group(embed_kmer per method) | aggregate_embeddings`;
running it, `count_kmer` works on the metagenome table, `normalize_kmer`
consumes the counts table `count_kmer` returned, each group member
consumes the normalized table, and `aggregate_embeddings` combines the
group members' embedding tables into the single table named by replacing
`-metagenome` with `-embeddings` in the metagenome table name. -/
theorem preprocess_embeddings_pipeline (mt : String) (cpus kmer_size : Nat)
    (nm : String) (ems : List String) :
    (preprocess_embeddings mt cpus kmer_size nm ems =
      .chain
        (.chain
          (.chain (.task (.countKmer mt kmer_size cpus))
            (.task (.normalizeKmer nm)))
          (.group (ems.map fun m => .embedKmer m cpus)))
        (.task (.aggregateEmbeddings (mt.replace "-metagenome" "-embeddings"))))
    ∧ (runCanvas none (.task (.countKmer mt kmer_size cpus)) =
        some (.str (count_kmer_table mt kmer_size)))
    ∧ (runSig (some (.str (count_kmer_table mt kmer_size)))
        (.normalizeKmer nm) =
        some (.str (normalize_kmer_table (count_kmer_table mt kmer_size) nm)))
    ∧ (runCanvas none
        (.chain
          (.chain (.task (.countKmer mt kmer_size cpus))
            (.task (.normalizeKmer nm)))
          (.group (ems.map fun m => .embedKmer m cpus))) =
        some (.strs (ems.map fun m =>
          embed_kmer_table
            (normalize_kmer_table (count_kmer_table mt kmer_size) nm) m)))
    ∧ (runCanvas none (preprocess_embeddings mt cpus kmer_size nm ems) =
        some (.str (mt.replace "-metagenome" "-embeddings"))) := by
  have hgroup : runCanvas none
      (.chain
        (.chain (.task (.countKmer mt kmer_size cpus))
          (.task (.normalizeKmer nm)))
        (.group (ems.map fun m => .embedKmer m cpus))) =
      some (.strs (ems.map fun m =>
        embed_kmer_table
          (normalize_kmer_table (count_kmer_table mt kmer_size) nm) m)) := by
    simp only [runCanvas, runSig,
      collectTables_embed_group
        (normalize_kmer_table (count_kmer_table mt kmer_size) nm) cpus ems]
  refine ⟨rfl, rfl, rfl, hgroup, ?_⟩
  show runCanvas
      (runCanvas none
        (.chain
          (.chain (.task (.countKmer mt kmer_size cpus))
            (.task (.normalizeKmer nm)))
          (.group (ems.map fun m => .embedKmer m cpus))))
      (.task (.aggregateEmbeddings (mt.replace "-metagenome" "-embeddings"))) =
    some (.str (mt.replace "-metagenome" "-embeddings"))
  rw [hgroup]
  rfl

/-- C7: schema multiplicities.  Modelled from the spec (the SQLModel
definitions of automappa/data/models.py are not among the provided
sources): a contig carries exactly one metagenome id, may have zero or
several markers, may sit in zero or several refinements, and a
refinement may hold several contigs — the contig/refinement link is
many-to-many. -/
theorem schema_multiplicities :
    (∀ c : Contig, ∃! mid : Nat, c.metagenome_id = mid)
    ∧ (∃ db : DB, ∃ c ∈ db.contigs,
        contigMarkers db c = [] ∧
          ∀ r ∈ db.refinements, c.id ∉ r.contig_ids)
    ∧ (∃ db : DB, ∃ c ∈ db.contigs, (contigMarkers db c).length = 2)
    ∧ (∃ db : DB, ∃ r1 ∈ db.refinements, ∃ r2 ∈ db.refinements,
        r1 ≠ r2 ∧ ∃ cid, cid ∈ r1.contig_ids ∧ cid ∈ r2.contig_ids)
    ∧ (∃ db : DB, ∃ r ∈ db.refinements, 2 ≤ r.contig_ids.length) := by
  refine ⟨fun c => ⟨c.metagenome_id, rfl, fun m h => h.symm⟩, ?_, ?_, ?_, ?_⟩
  · exact ⟨⟨[{ id := 1, metagenome_id := 1, header := "c1" }], [], []⟩,
      { id := 1, metagenome_id := 1, header := "c1" }, by simp,
      by decide, by decide⟩
  · exact ⟨⟨[{ id := 1, metagenome_id := 1, header := "c1" }], [],
      [{ id := 10, contig_id := 1 }, { id := 11, contig_id := 1 }]⟩,
      { id := 1, metagenome_id := 1, header := "c1" }, by simp, by decide⟩
  · exact ⟨⟨[],
      [{ id := 1, metagenome_id := 1, outdated := true,
         initial_refinement := false, timestamp := 0, contig_ids := [5] },
       { id := 2, metagenome_id := 1, outdated := false,
         initial_refinement := false, timestamp := 1, contig_ids := [5] }],
      []⟩,
      { id := 1, metagenome_id := 1, outdated := true,
        initial_refinement := false, timestamp := 0, contig_ids := [5] },
      by simp,
      { id := 2, metagenome_id := 1, outdated := false,
        initial_refinement := false, timestamp := 1, contig_ids := [5] },
      by simp, by decide, 5, by decide, by decide⟩
  · exact ⟨⟨[],
      [{ id := 1, metagenome_id := 1, outdated := false,
         initial_refinement := false, timestamp := 0,
         contig_ids := [5, 6] }], []⟩,
      { id := 1, metagenome_id := 1, outdated := false,
        initial_refinement := false, timestamp := 0, contig_ids := [5, 6] },
      by simp, by decide⟩

/-- One `save_selections_to_refinement` call keeps the uniqueness of
non-outdated membership: old rows holding a selected contig become
outdated, the new row is the sole non-outdated holder of the selected
contigs, and unselected contigs only lose non-outdated memberships. -/
lemma save_preserves_atMostOneCurrent {db : DB} (h : AtMostOneCurrent db)
    (mg : Nat) (hs : List String) (now nid : Nat) :
    AtMostOneCurrent (save_selections_to_refinement db mg hs now nid) := by
  intro cid
  have hq := h cid
  unfold currentCount at hq ⊢
  rw [save_refinements_eq, List.countP_append, List.countP_map]
  by_cases hc : cid ∈ (selectedContigs db mg hs).map Contig.id
  · have hzero : List.countP
        ((fun r => !r.outdated && decide (cid ∈ r.contig_ids)) ∘
          fun r => if touches (selectedContigs db mg hs) r then
            { r with outdated := true } else r) db.refinements = 0 := by
      rw [List.countP_eq_zero]
      intro r _
      by_cases htr : touches (selectedContigs db mg hs) r = true
      · simp [htr]
      · have htrf : touches (selectedContigs db mg hs) r = false := by
          simpa using htr
        obtain ⟨c, hcsel, hcide⟩ := List.mem_map.mp hc
        have hany : ∀ c ∈ selectedContigs db mg hs, c.id ∉ r.contig_ids := by
          simpa [touches] using htrf
        have hnotin : cid ∉ r.contig_ids := by
          simpa [hcide] using hany c hcsel
        simp [htr, hnotin]
    rw [hzero]
    have : List.countP
        (fun (r : Refinement) => !r.outdated && decide (cid ∈ r.contig_ids))
        [{ id := nid, metagenome_id := mg, outdated := false,
           initial_refinement := false, timestamp := now,
           contig_ids := (selectedContigs db mg hs).map Contig.id }] ≤ 1 :=
      le_trans (List.countP_le_length _) (by simp)
    omega
  · have hnew : List.countP
        (fun (r : Refinement) => !r.outdated && decide (cid ∈ r.contig_ids))
        [{ id := nid, metagenome_id := mg, outdated := false,
           initial_refinement := false, timestamp := now,
           contig_ids := (selectedContigs db mg hs).map Contig.id }] = 0 := by
      rw [List.countP_eq_zero]
      intro r hr
      simp only [List.mem_singleton] at hr
      simp [hr, hc]
    rw [hnew]
    have hmono : List.countP
        ((fun r => !r.outdated && decide (cid ∈ r.contig_ids)) ∘
          fun r => if touches (selectedContigs db mg hs) r then
            { r with outdated := true } else r) db.refinements ≤
        List.countP (fun r => !r.outdated && decide (cid ∈ r.contig_ids))
          db.refinements := by
      apply List.countP_mono_left
      intro r _ hpr
      by_cases htr : touches (selectedContigs db mg hs) r = true
      · simp [htr] at hpr
      · simpa [htr] using hpr
    omega

/-- Under the uniqueness invariant, the rows listed by
`get_refinements_row_data` have pairwise disjoint contig sets. -/
lemma currentRefinements_pairwise_disjoint {db : DB}
    (h : AtMostOneCurrent db) (mg : Nat) :
    (currentRefinements db mg).Pairwise
      fun r1 r2 => ∀ cid, cid ∈ r1.contig_ids → cid ∉ r2.contig_ids := by
  rw [List.pairwise_iff_forall_sublist]
  intro r1 r2 hsub cid h1 h2
  have hm1 : r1 ∈ currentRefinements db mg := hsub.subset (by simp)
  have hm2 : r2 ∈ currentRefinements db mg := hsub.subset (by simp)
  have ho1 : r1.outdated = false := by
    have := (List.mem_filter.mp hm1).2
    simp only [Bool.and_eq_true, Bool.not_eq_true'] at this
    exact this.1.2
  have ho2 : r2.outdated = false := by
    have := (List.mem_filter.mp hm2).2
    simp only [Bool.and_eq_true, Bool.not_eq_true'] at this
    exact this.1.2
  have htwo : List.countP
      (fun r => !r.outdated && decide (cid ∈ r.contig_ids)) [r1, r2] = 2 := by
    simp [List.countP_cons, ho1, ho2, h1, h2]
  have hle1 : List.countP
      (fun r => !r.outdated && decide (cid ∈ r.contig_ids)) [r1, r2] ≤
      List.countP (fun r => !r.outdated && decide (cid ∈ r.contig_ids))
        (currentRefinements db mg) :=
    hsub.countP_le _
  have hle2 : List.countP
      (fun r => !r.outdated && decide (cid ∈ r.contig_ids))
        (currentRefinements db mg) ≤
      List.countP (fun r => !r.outdated && decide (cid ∈ r.contig_ids))
        db.refinements :=
    (List.filter_sublist _).countP_le _
  have hone := h cid
  unfold currentCount at hone
  omega

/-- C5: starting from a state where every contig sits in at most one
non-outdated refinement, any sequence of `save_selections_to_refinement`
calls keeps it so, and the current-refinements listing never holds two
refinements sharing a contig. -/
theorem saves_preserve_unique_current_membership (db : DB)
    (h : AtMostOneCurrent db)
    (calls : List (Nat × List String × Nat × Nat)) :
    AtMostOneCurrent (applyCalls db calls)
    ∧ ∀ mg, (currentRefinements (applyCalls db calls) mg).Pairwise
        fun r1 r2 => ∀ cid, cid ∈ r1.contig_ids → cid ∉ r2.contig_ids := by
  have hall : ∀ (cs : List (Nat × List String × Nat × Nat)) (d : DB),
      AtMostOneCurrent d → AtMostOneCurrent (applyCalls d cs) := by
    intro cs
    induction cs with
    | nil => exact fun d hd => hd
    | cons c cs ih =>
        exact fun d hd => ih _ (save_preserves_atMostOneCurrent hd _ _ _ _)
  exact ⟨hall calls db h,
    fun mg => currentRefinements_pairwise_disjoint (hall calls db h) mg⟩

/-- Closed instance of `saves_preserve_unique_current_membership`. -/
theorem saves_preserve_unique_current_membership_witness :
    AtMostOneCurrent
      (applyCalls ⟨[{ id := 4, metagenome_id := 3, header := "c1" }], [], []⟩
        [(3, ["c1"], 9, 1), (3, ["c1"], 10, 2)]) :=
  (saves_preserve_unique_current_membership
      ⟨[{ id := 4, metagenome_id := 3, header := "c1" }], [], []⟩
      (fun cid => by simp [currentCount])
      [(3, ["c1"], 9, 1), (3, ["c1"], 10, 2)]).1

/-- C9 (failing input): with two contigs of equal length the length
range is zero, so `marker_size_scaler` takes its
`# Protect Division by 0` branch — which still computes
`x_min_scaler / x_max_scaler + 1` with the zero `x_max_scaler` (the
`+ 1` is outside the division), and every marker size comes out NaN
instead of a number. -/
theorem marker_size_scaler_zero_range_is_nan :
    seriesMin [(5 : ℚ), 5] = some 5
    ∧ seriesMax [(5 : ℚ), 5] = some 5
    ∧ marker_size_scaler [(5 : ℚ), 5] = [none, none] := by
  refine ⟨by simp [seriesMin], by simp [seriesMax], ?_⟩
  simp [marker_size_scaler, seriesMin, seriesMax, npDiv]

end Automappa
